import Mathlib

/-!
Verification development for the maptalks.tileclip cross-projection tile
pipeline.  The TypeScript sources are shallowly embedded: JS numbers are
modelled by exact rationals (`ℚ`) except where IEEE special values matter,
where an explicit `JSNum` type (`nan`/`inf`/`ninf`/finite) is used; JS `Map`
objects are association lists in insertion order; typed-array pixel buffers
are `List ℕ` with JS out-of-range read/write semantics (reads of missing
indices yield 0 after clamping, writes out of range are dropped); callback
side effects (the LRU disposal hook, `AbortController.abort`) are modelled by
returning the list of payloads/tokens the hook was invoked on.
-/

namespace TileClip

/-! ### JS `Map` modelled as an insertion-ordered association list -/

/-- Keys present in the map (JS `Map.prototype.has`). -/
def mapHas {V : Type} (m : List (String × V)) (k : String) : Bool :=
  m.any (fun p => p.1 == k)

/-- Lookup (JS `Map.prototype.get`); `none` plays the role of `undefined`. -/
def mapGet {V : Type} (m : List (String × V)) (k : String) : Option V :=
  (m.find? (fun p => p.1 == k)).map Prod.snd

/-- Deletion (JS `Map.prototype.delete`): removes the entry with the key. -/
def mapDelete {V : Type} (m : List (String × V)) (k : String) : List (String × V) :=
  m.filter (fun p => p.1 != k)

/-- JS `Map.prototype.set`: updates in place when the key exists (keeping its
position in insertion order), otherwise appends at the end. -/
def mapSet {V : Type} (m : List (String × V)) (k : String) (v : V) : List (String × V) :=
  if mapHas m k then m.map (fun p => if p.1 == k then (k, v) else p) else m ++ [(k, v)]

/-! ### LRUCache (src/unnamed/part_001, class `LRUCache`)

Payloads are modelled as `ℕ`; JS truthiness of a payload is `v ≠ 0`.  The
`onRemove` disposal hook is modelled by collecting, in call order, the
payloads it is invoked on. -/

/-- State of an `LRUCache` instance: capacity `max` and the backing `Map`
(insertion-ordered association list). -/
structure LRUCache where
  max : ℕ
  data : List (String × ℕ)
deriving DecidableEq, Repr

/-- Loop body of `LRUCache.shrink`: walks the key iterator in insertion order
and, while `data.size > max`, does `getAndRemove(key)` and invokes `onRemove`
on the removed payload when it is truthy.  The key list argument is the
iterator; the returned list collects the `onRemove` invocations. -/
def shrinkGo (max : ℕ) : List (String × ℕ) → List String → List ℕ →
    List (String × ℕ) × List ℕ
  | data, [], removed => (data, removed)
  | data, k :: rest, removed =>
    if data.length > max then
      if mapHas data k then
        let v := (mapGet data k).getD 0
        shrinkGo max (mapDelete data k) rest (if v ≠ 0 then removed ++ [v] else removed)
      else
        shrinkGo max data rest removed
    else (data, removed)

/-- `LRUCache.shrink`: evicts from the front of the insertion order until the
size is back within `max`. -/
def LRUCache.shrink (c : LRUCache) : LRUCache × List ℕ :=
  let (d, removed) := shrinkGo c.max c.data (c.data.map Prod.fst) []
  ({ c with data := d }, removed)

/-- `LRUCache.add`: ignores falsy payloads; re-inserting an existing key moves
it to the back (delete then set); shrinks when the size exceeds `max`.
Returns the new state and the disposal-hook invocations. -/
def LRUCache.add (c : LRUCache) (key : String) (v : ℕ) : LRUCache × List ℕ :=
  if v = 0 then (c, [])
  else if mapHas c.data key then
    let d := mapSet (mapDelete c.data key) key v
    if d.length > c.max then LRUCache.shrink { c with data := d }
    else ({ c with data := d }, [])
  else
    let d := mapSet c.data key v
    if d.length > c.max then LRUCache.shrink { c with data := d }
    else ({ c with data := d }, [])

/-- `LRUCache.get`: returns the stored payload (or `null`) and does not touch
the map, so the insertion/recency order is unchanged by reads. -/
def LRUCache.get (c : LRUCache) (key : String) : Option ℕ :=
  if mapHas c.data key then mapGet c.data key else none

/-! ### Cancellation groups (src/src/tileget.ts, `CONTROLCACHE` / `cancelFetch`)

`CONTROLCACHE` is a plain JS object mapping task ids to arrays of
`AbortController`s; controllers are modelled by numeric tokens.  `abort`
side effects are modelled by returning the list of aborted tokens. -/

/-- The `CONTROLCACHE` table: task id to registered cancellation tokens. -/
abbrev ControlTable := List (String × List ℕ)

/-- Object-key lookup `CONTROLCACHE[taskId] || []`. -/
def controlLookup (t : ControlTable) (taskId : String) : List ℕ :=
  ((t.find? (fun p => p.1 == taskId)).map Prod.snd).getD []

/-- `cancelFetch(taskId)`: aborts every controller in the group (the second
component lists the `abort` calls in order) and deletes the group entry. -/
def cancelFetch (t : ControlTable) (taskId : String) : ControlTable × List ℕ :=
  let controlList := controlLookup t taskId
  (t.filter (fun p => p.1 != taskId), controlList)

/-! ### fetchTile / fetchTileBuffer entry control flow (src/src/tileget.ts)

Only the synchronous prefix of the two promise executors is modelled: the
order of the ImageBitmap shortcut, the `__taskId` guard, the cache lookup and
the decision to go to the network.  Effects the prefix performs are recorded
in order. -/

/-- Observable steps performed by the entry code of `fetchTile` /
`fetchTileBuffer` before settling or handing off to the network. -/
inductive FetchEffect
  | cacheLookup
  | networkFetch
deriving DecidableEq, Repr

/-- Outcome of the modelled prefix. -/
inductive FetchOutcome
  | resolvedBitmapCopy
  | rejectedInner (msg : String)
  | resolvedCacheHit (payload : ℕ)
  | wentToNetwork
deriving DecidableEq, Repr

/-- JS falsiness of `options.__taskId` (absent, `null`/`undefined`, or the
empty string). -/
def taskIdFalsy (taskId : Option String) : Bool :=
  match taskId with
  | none => true
  | some s => s == ""

/-- Entry control flow of `fetchTile(url, headers, options)`: ImageBitmap
urls are copied straight away; then a falsy `options.__taskId` rejects with
the inner error `taskId is null`; only afterwards is the image cache
consulted and, on a miss, the network fetch started. -/
def fetchTileEntry (urlIsImageBitmap : Bool) (taskId : Option String)
    (tileImageCache : List (String × ℕ)) (url : String) :
    FetchOutcome × List FetchEffect :=
  if urlIsImageBitmap then (.resolvedBitmapCopy, [])
  else if taskIdFalsy taskId then (.rejectedInner "taskId is null", [])
  else
    match mapGet tileImageCache url with
    | some image => (.resolvedCacheHit image, [.cacheLookup])
    | none => (.wentToNetwork, [.cacheLookup, .networkFetch])

/-- Entry control flow of `fetchTileBuffer(url, headers, options)`: same as
`fetchTileEntry` but with no ImageBitmap shortcut. -/
def fetchTileBufferEntry (taskId : Option String)
    (tileBufferCache : List (String × ℕ)) (url : String) :
    FetchOutcome × List FetchEffect :=
  if taskIdFalsy taskId then (.rejectedInner "taskId is null", [])
  else
    match mapGet tileBufferCache url with
    | some buffer => (.resolvedCacheHit buffer, [.cacheLookup])
    | none => (.wentToNetwork, [.cacheLookup, .networkFetch])

/-! ### Cache-hit payload duplication (src/src/tileget.ts, hit paths)

Aliasing is made observable through a tiny heap: payload objects live in
`Heap.cells`, identified by their index.  `createImageBitmap(image)` (the
`copyImageBitMap` helper in `fetchTile`) allocates a fresh bitmap with the
same contents; the `copyBuffer` helper in `fetchTileBuffer` resolves with the
very object it was handed. -/

/-- Heap of payload objects; a payload's identity is its cell index. -/
structure Heap where
  cells : List (List ℕ)
deriving DecidableEq, Repr

/-- Allocation of a fresh object with the given contents. -/
def Heap.alloc (h : Heap) (contents : List ℕ) : Heap × ℕ :=
  (⟨h.cells ++ [contents]⟩, h.cells.length)

/-- Contents of the object with the given identity. -/
def Heap.read (h : Heap) (id : ℕ) : List ℕ :=
  h.cells.getD id []

/-- Cache hit in `fetchTile`: `copyImageBitMap(image)` resolves with
`createImageBitmap(image)`, a freshly allocated bitmap holding the same
pixel contents as the cached one. -/
def fetchTileHit (h : Heap) (cachedId : ℕ) : Heap × ℕ :=
  h.alloc (h.read cachedId)

/-- Cache hit in `fetchTileBuffer`: `copyBuffer(buffer)` resolves with the
argument itself, so the cached object's identity is returned unchanged. -/
def fetchTileBufferHit (h : Heap) (cachedId : ℕ) : Heap × ℕ :=
  (h, cachedId)

/-! ### Seam repair (src/unnamed/part_000, `checkBoundaryBlank`)

The RGBA pixel buffer of a `width × height` canvas is a `List ℕ` of length
`width*height*4`.  Index arithmetic is carried out in `ℤ` exactly as the JS
source writes it; reading a negative or out-of-range index yields 0 (JS
`undefined`, which the `Uint8ClampedArray` stores as 0), and writing out of
range is dropped. -/

/-- Raster with its RGBA byte buffer. -/
structure ImgData where
  width : ℕ
  height : ℕ
  data : List ℕ
deriving DecidableEq, Repr

/-- Typed-array read at a JS (possibly negative) index. -/
def dgetZ (d : List ℕ) (i : ℤ) : ℕ :=
  if 0 ≤ i then d.getD i.toNat 0 else 0

/-- Typed-array write at a JS (possibly negative) index. -/
def dsetZ (d : List ℕ) (i : ℤ) (v : ℕ) : List ℕ :=
  if 0 ≤ i then d.set i.toNat v else d

/-- Copies the four RGBA bytes starting at `idx2` over those starting at `idx1`
(the body shared by all repair loops in `checkBoundaryBlank`). -/
def copy4 (d : List ℕ) (idx1 idx2 : ℤ) : List ℕ :=
  let r := dgetZ d idx2
  let g := dgetZ d (idx2 + 1)
  let b := dgetZ d (idx2 + 2)
  let a := dgetZ d (idx2 + 3)
  dsetZ (dsetZ (dsetZ (dsetZ d idx1 r) (idx1 + 1) g) (idx1 + 2) b) (idx1 + 3) a

/-- The `leftIsBlank` closure: column 1 has zero alpha on every row. -/
def leftIsBlank (width height : ℕ) (d : List ℕ) : Bool :=
  (List.range height).all fun r =>
    dgetZ d ((width * 4 * r : ℕ) + 3) == 0

/-- The `colIsBlank(col)` closure (`col` is 1-based as in the source). -/
def colIsBlank (width height : ℕ) (d : List ℕ) (col : ℤ) : Bool :=
  (List.range height).all fun r =>
    dgetZ d ((width * 4 * r : ℕ) + (col - 1) * 4 + 3) == 0

/-- The `bottomIsBlank` closure: the last row has zero alpha in every column. -/
def bottomIsBlank (width height : ℕ) (d : List ℕ) : Bool :=
  (List.range width).all fun c =>
    dgetZ d ((c * 4 + (height - 1) * width * 4 : ℕ) + 3) == 0

/-- The `fixCol(col1, col2)` closure: copies column `col2` onto column `col1`
row by row (columns are 1-based; `col2` may be out of range, in which case JS
reads `undefined` and stores zeros). -/
def fixCol (width height : ℕ) (d : List ℕ) (col1 col2 : ℤ) : List ℕ :=
  (List.range height).foldl
    (fun d r =>
      copy4 d ((width * 4 * r : ℕ) + (col1 - 1) * 4) ((width * 4 * r : ℕ) + (col2 - 1) * 4))
    d

/-- `checkBoundaryBlank(ctx)`: repairs a fully transparent first column from
column 2, a fully transparent last row from the row above it, and then walks
all columns against the `colBlanks` snapshot, copying a blank column from its
right neighbour when that snapshot marks the neighbour non-blank.  The
`pre` binding reproduces the source's `colBlanks[col - 1]` read. -/
def checkBoundaryBlank (img : ImgData) : ImgData :=
  let width := img.width
  let height := img.height
  let d0 := img.data
  let d1 :=
    if leftIsBlank width height d0 then
      (List.range height).foldl
        (fun d r => copy4 d (width * 4 * r : ℕ) ((width * 4 * r : ℕ) + 4)) d0
    else d0
  let d2 :=
    if bottomIsBlank width height d1 then
      (List.range width).foldl
        (fun d c =>
          copy4 d (c * 4 + (height - 1) * width * 4 : ℕ)
            ((c * 4 : ℤ) + ((height : ℤ) - 2) * width * 4)) d1
    else d1
  let colBlanks := (List.range width).map fun i => colIsBlank width height d2 ((i : ℤ) + 1)
  let hasColBlank := colBlanks.contains true
  let d3 :=
    if hasColBlank then
      (List.range width).foldl
        (fun d (i : ℕ) =>
          let col : ℤ := (i : ℤ) + 1
          let current := colBlanks.getD i false
          if !current then d
          else
            let next := colBlanks.getD (i + 1) false
            let pre := colBlanks.getD i false
            if !next then fixCol width height d col (col + 1)
            else if !pre then fixCol width height d col (col - 1)
            else d) d2
    else d2
  ⟨width, height, d3⟩

/-! ### Bounding boxes and points (src/bbox helpers and part_000 geometry)

Coordinates are exact rationals.  The external coordinate libraries
(`gcoord` transforms, `@mapbox/sphericalmercator`) are parameters of the
embedding: the claims below are about which corners the source feeds into
them, not about the transcendental formulas themselves. -/

/-- Planar point. -/
abbrev Pt := ℚ × ℚ

/-- Bounding box `[minx, miny, maxx, maxy]`; the four fields mirror the JS
array slots 0..3. -/
structure BBOXt where
  b0 : ℚ
  b1 : ℚ
  b2 : ℚ
  b3 : ℚ
deriving DecidableEq, Repr

/-- Modelled from the spec: `bboxToPoints` (src/bbox.ts is not in the
sources) returns the box's 4 corner points ("Transform each of the box's 4
corner points"). -/
def bboxToPoints (b : BBOXt) : List Pt :=
  [(b.b0, b.b1), (b.b2, b.b1), (b.b2, b.b3), (b.b0, b.b3)]

/-- Fold of `Math.min` over a nonempty list seeded with `Infinity` (on the
empty list the JS seed `Infinity` survives; the sources only apply this to
nonempty corner lists, so the empty case is given an arbitrary value). -/
def listMin (l : List ℚ) : ℚ :=
  match l with
  | [] => 0
  | x :: xs => xs.foldl min x

/-- Fold of `Math.max` over a nonempty list seeded with `-Infinity`. -/
def listMax (l : List ℚ) : ℚ :=
  match l with
  | [] => 0
  | x :: xs => xs.foldl max x

/-- Modelled from the spec: `pointsToBBOX` (src/bbox.ts is not in the
sources) forms the min/max bounding box of a point list. -/
def pointsToBBOX (pts : List Pt) : BBOXt :=
  ⟨listMin (pts.map Prod.fst), listMin (pts.map Prod.snd),
   listMax (pts.map Prod.fst), listMax (pts.map Prod.snd)⟩

/-- Modelled from the spec: `bboxOfBBOXList` (src/bbox.ts is not in the
sources) is "the exact union of the enumerated tiles' own mercator bounding
boxes", i.e. the min/max envelope of a bbox list. -/
def bboxOfBBOXList (l : List BBOXt) : BBOXt :=
  ⟨listMin (l.map BBOXt.b0), listMin (l.map BBOXt.b1),
   listMax (l.map BBOXt.b2), listMax (l.map BBOXt.b3)⟩

/-- Projection identifiers used by part_000. -/
inductive Proj
  | epsg4326
  | epsg3857
deriving DecidableEq, Repr

/-- External coordinate transforms used by `offsetTileBBOX` and the planners,
kept abstract: `gcoord.transform(·, WebMercator, WGS84)`,
`gcoord.transform(·, WGS84, AMap)`, `lnglat2Mercator` from src/util,
`merc.bbox(x, y, z)`, `merc.forward`, and `merc.bbox(x, y, z, false,
'900913')` from `@mapbox/sphericalmercator`. -/
structure GeoExt where
  merc2geo : Pt → Pt
  geo2gcj : Pt → Pt
  lnglat2Merc : Pt → Pt
  mercBBox : ℤ → ℤ → ℕ → BBOXt
  mercForward : Pt → Pt
  merc900913BBox : ℤ → ℤ → ℤ → BBOXt

/-- `offsetTileBBOX(bbox, projection, isGCJ02)` (part_000 lines 51-98): a
no-op unless `isGCJ02`; otherwise transforms the 4 corners (mercator→geodetic
first when the projection is `EPSG:3857`), then geodetic→AMap, and takes the
min/max.  For `EPSG:4326` the box is overwritten with those min/max; for
`EPSG:3857` the source rebuilds a box as `[minx, miny, maxx, maxx]` (line
81, reusing `maxx` in the `maxy` slot), maps its corners through
`lnglat2Mercator` and overwrites the box with their min/max.  The JS
function mutates its argument; the embedding returns the final box. -/
def offsetTileBBOX (G : GeoExt) (bbox : BBOXt) (projection : Proj)
    (isGCJ02 : Bool) : BBOXt :=
  if !isGCJ02 then bbox
  else
    let points := bboxToPoints bbox
    let newPoints := points.map fun p =>
      if projection = .epsg3857 then G.merc2geo p else p
    let transformPoints := newPoints.map G.geo2gcj
    let minx := listMin (transformPoints.map Prod.fst)
    let miny := listMin (transformPoints.map Prod.snd)
    let maxx := listMax (transformPoints.map Prod.fst)
    let maxy := listMax (transformPoints.map Prod.snd)
    if projection = .epsg4326 then ⟨minx, miny, maxx, maxy⟩
    else
      let pts := (bboxToPoints ⟨minx, miny, maxx, maxx⟩).map G.lnglat2Merc
      ⟨listMin (pts.map Prod.fst), listMin (pts.map Prod.snd),
       listMax (pts.map Prod.fst), listMax (pts.map Prod.snd)⟩

/-- Claim-side variant, following the spec's words: "reconvert the two
extreme corners geodetic→mercator and overwrite the box with their min/max",
the extreme corners being `(minx, miny)` and `(maxx, maxy)` of the
offset-corrected geodetic extent. -/
def offsetTileBBOXClaim (G : GeoExt) (bbox : BBOXt) (projection : Proj)
    (isGCJ02 : Bool) : BBOXt :=
  if !isGCJ02 then bbox
  else
    let points := bboxToPoints bbox
    let newPoints := points.map fun p =>
      if projection = .epsg3857 then G.merc2geo p else p
    let transformPoints := newPoints.map G.geo2gcj
    let minx := listMin (transformPoints.map Prod.fst)
    let miny := listMin (transformPoints.map Prod.snd)
    let maxx := listMax (transformPoints.map Prod.fst)
    let maxy := listMax (transformPoints.map Prod.snd)
    if projection = .epsg4326 then ⟨minx, miny, maxx, maxy⟩
    else
      let pts := [(minx, miny), (maxx, maxy)].map G.lnglat2Merc
      ⟨listMin (pts.map Prod.fst), listMin (pts.map Prod.snd),
       listMax (pts.map Prod.fst), listMax (pts.map Prod.snd)⟩

/-! ### Tiling arithmetic (part_000) -/

/-- `FirstRes` = 1.40625 degrees/pixel at zoom 0. -/
def FirstRes : ℚ := 1.40625

/-- `mFirstRes` = 156543.03392804097 meters/pixel at zoom 0 (exact value of
the decimal literal). -/
def mFirstRes : ℚ := 156543.03392804097

/-- `get4326Res(zoom)`. -/
def get4326Res (zoom : ℕ) : ℚ := FirstRes / 2 ^ zoom

/-- `get3857Res(zoom)`. -/
def get3857Res (zoom : ℕ) : ℚ := mFirstRes / 2 ^ zoom

/-- `tile4326BBOX(x, y, z)`: geodetic tile bbox from origin `(-180, 90)`;
the source floors the integer col/row, which is the identity here. -/
def tile4326BBOX (x y : ℤ) (z : ℕ) : BBOXt :=
  let res := get4326Res z * 256
  ⟨-180 + x * res, -90 + y * res, -180 + (x + 1) * res, -90 + (y + 1) * res⟩

/-- Inclusive integer range `[lo, hi]` as enumerated by a JS
`for (let v = lo; v <= hi; v++)` loop. -/
def rangeZ (lo hi : ℤ) : List ℤ :=
  (List.range (hi - lo + 1).toNat).map fun (i : ℕ) => lo + (i : ℤ)

/-- Result record of `cal4326Tiles` / `cal3857Tiles`. -/
structure CalResult where
  tiles : List (ℤ × ℤ × ℤ)
  tilesbbox : BBOXt
  bbox : BBOXt
  mbbox : BBOXt
  x : ℤ
  y : ℤ
  z : ℕ
deriving DecidableEq, Repr

/-- Offset-corrected target bbox used by `cal4326Tiles` (its `tileBBOX`). -/
def bbox4326 (G : GeoExt) (x y : ℤ) (z : ℕ) (isGCJ02 : Bool) : BBOXt :=
  offsetTileBBOX G (G.mercBBox x y z) .epsg4326 isGCJ02

/-- Column/row window computed by `cal4326Tiles` (in source order:
`mincol`, `maxcol`, `minrow`, `maxrow`). -/
def mincol4326 (G : GeoExt) (x y : ℤ) (z : ℕ) (g : Bool) : ℤ :=
  ⌊((bbox4326 G x y z g).b0 - (-180)) / (get4326Res z * 256)⌋

/-- Upper column bound of the `cal4326Tiles` window. -/
def maxcol4326 (G : GeoExt) (x y : ℤ) (z : ℕ) (g : Bool) : ℤ :=
  ⌊((bbox4326 G x y z g).b2 - (-180)) / (get4326Res z * 256)⌋

/-- Lower row bound of the `cal4326Tiles` window. -/
def minrow4326 (G : GeoExt) (x y : ℤ) (z : ℕ) (g : Bool) : ℤ :=
  ⌊((90 : ℚ) - (bbox4326 G x y z g).b3) / (get4326Res z * 256)⌋

/-- Upper row bound of the `cal4326Tiles` window. -/
def maxrow4326 (G : GeoExt) (x y : ℤ) (z : ℕ) (g : Bool) : ℤ :=
  ⌊((90 : ℚ) - (bbox4326 G x y z g).b1) / (get4326Res z * 256)⌋

/-- `cal4326Tiles(x, y, z, zoomOffset, isGCJ02)` (part_000 lines 107-151):
plans the geodetic tiles covering a mercator target tile.  Returns
`none` (the JS bare `return`) when the computed window is inverted;
otherwise enumerates the window row-major, pushing `[col - 1, row,
z + zoomOffset]`. -/
def cal4326Tiles (G : GeoExt) (x y : ℤ) (z : ℕ) (zoomOffset : ℤ)
    (isGCJ02 : Bool) : Option CalResult :=
  let orginX : ℚ := -180
  let orginY : ℚ := 90
  let res := get4326Res z * 256
  let tileBBOX := bbox4326 G x y z isGCJ02
  let mincol := mincol4326 G x y z isGCJ02
  let maxcol := maxcol4326 G x y z isGCJ02
  let minrow := minrow4326 G x y z isGCJ02
  let maxrow := maxrow4326 G x y z isGCJ02
  if maxcol < mincol ∨ maxrow < minrow then none
  else
    let tiles := (rangeZ minrow maxrow).flatMap fun row =>
      (rangeZ mincol maxcol).map fun col => (col - 1, row, (z : ℤ) + zoomOffset)
    let xmin := orginX + (mincol - 1) * res
    let xmax := orginX + maxcol * res
    let ymin := orginY - (maxrow + 1) * res
    let ymax := orginY - minrow * res
    let coordinates := (bboxToPoints tileBBOX).map G.lnglat2Merc
    some
      { tiles := tiles
        tilesbbox := ⟨xmin, ymin, xmax, ymax⟩
        bbox := tileBBOX
        mbbox := pointsToBBOX coordinates
        x := x, y := y, z := z }

/-- Offset-corrected target bbox used by `cal3857Tiles` (its `tileBBOX`). -/
def bbox3857 (G : GeoExt) (x y : ℤ) (z : ℕ) (isGCJ02 : Bool) : BBOXt :=
  offsetTileBBOX G (tile4326BBOX x y z) .epsg4326 isGCJ02

/-- Mercator bbox of the corrected target bbox in `cal3857Tiles` (its
`mbbox`). -/
def mbbox3857 (G : GeoExt) (x y : ℤ) (z : ℕ) (g : Bool) : BBOXt :=
  pointsToBBOX ((bboxToPoints (bbox3857 G x y z g)).map G.mercForward)

/-- Lower column bound of the `cal3857Tiles` window (mercator origin
`(-20037508.342787, 20037508.342787)`). -/
def mincol3857 (G : GeoExt) (x y : ℤ) (z : ℕ) (g : Bool) : ℤ :=
  ⌊((mbbox3857 G x y z g).b0 - (-20037508.342787 : ℚ)) / (get3857Res z * 256)⌋

/-- Upper column bound of the `cal3857Tiles` window. -/
def maxcol3857 (G : GeoExt) (x y : ℤ) (z : ℕ) (g : Bool) : ℤ :=
  ⌊((mbbox3857 G x y z g).b2 - (-20037508.342787 : ℚ)) / (get3857Res z * 256)⌋

/-- Lower row bound of the `cal3857Tiles` window. -/
def minrow3857 (G : GeoExt) (x y : ℤ) (z : ℕ) (g : Bool) : ℤ :=
  ⌊((20037508.342787 : ℚ) - (mbbox3857 G x y z g).b3) / (get3857Res z * 256)⌋

/-- Upper row bound of the `cal3857Tiles` window. -/
def maxrow3857 (G : GeoExt) (x y : ℤ) (z : ℕ) (g : Bool) : ℤ :=
  ⌊((20037508.342787 : ℚ) - (mbbox3857 G x y z g).b1) / (get3857Res z * 256)⌋

/-- `cal3857Tiles(x, y, z, zoomOffset, isGCJ02)` (part_000 lines 153-194):
plans the mercator tiles covering a geodetic target tile; enumerates the
window row-major pushing `[col, row, z + zoomOffset]` with no column
shift. -/
def cal3857Tiles (G : GeoExt) (x y : ℤ) (z : ℕ) (zoomOffset : ℤ)
    (isGCJ02 : Bool) : Option CalResult :=
  let tileBBOX := bbox3857 G x y z isGCJ02
  let mbbox := mbbox3857 G x y z isGCJ02
  let mincol := mincol3857 G x y z isGCJ02
  let maxcol := maxcol3857 G x y z isGCJ02
  let minrow := minrow3857 G x y z isGCJ02
  let maxrow := maxrow3857 G x y z isGCJ02
  if maxcol < mincol ∨ maxrow < minrow then none
  else
    let tiles := (rangeZ minrow maxrow).flatMap fun row =>
      (rangeZ mincol maxcol).map fun col => (col, row, (z : ℤ) + zoomOffset)
    let bboxList := tiles.map fun t => G.merc900913BBox t.1 t.2.1 t.2.2
    some
      { tiles := tiles
        tilesbbox := bboxOfBBOXList bboxList
        bbox := tileBBOX
        mbbox := mbbox
        x := x, y := y, z := z }

/-! ### Orchestrator decision in `tileTransform` (part_000 lines 460-521) -/

/-- What `loadTiles` does with a planner result: `result || {}` with missing
or empty `tiles` resolves the blank tile at once; otherwise the sequential
fetch loop runs once per planned tile. -/
inductive TTPlanOutcome
  | blankTile
  | fetchTiles (n : ℕ)
deriving DecidableEq, Repr

/-- Decision taken by `loadTiles` on the planner result. -/
def tileTransformPlan (result : Option CalResult) : TTPlanOutcome :=
  match result with
  | none => .blankTile
  | some r => if r.tiles.length = 0 then .blankTile else .fetchTiles r.tiles.length

/-- Number of per-tile `getTileWithMaxZoom` fetches the decision leads to. -/
def ttFetchCount : TTPlanOutcome → ℕ
  | .blankTile => 0
  | .fetchTiles n => n

/-! ### JS numbers with IEEE special values, for the pass-2 guard
(part_000, `transformTiles` lines 266-277)

The guard distinguishes `NaN` and `±Infinity`, so this corner of the
embedding uses an explicit JS-number type.  Negative zero is not modelled;
none of the statements below depend on it. -/

/-- JS number: `NaN`, `±Infinity`, or a finite (exact rational) value. -/
inductive JSNum
  | nan
  | inf
  | ninf
  | fin (q : ℚ)
deriving DecidableEq, Repr

/-- JS subtraction. -/
def JSNum.sub : JSNum → JSNum → JSNum
  | nan, _ => nan
  | _, nan => nan
  | inf, inf => nan
  | inf, ninf => inf
  | inf, fin _ => inf
  | ninf, ninf => nan
  | ninf, inf => ninf
  | ninf, fin _ => ninf
  | fin _, inf => ninf
  | fin _, ninf => inf
  | fin a, fin b => fin (a - b)

/-- JS division (without negative zero: a nonzero finite value divided by
zero gets the sign of the dividend). -/
def JSNum.div : JSNum → JSNum → JSNum
  | nan, _ => nan
  | _, nan => nan
  | inf, inf => nan
  | inf, ninf => nan
  | ninf, inf => nan
  | ninf, ninf => nan
  | inf, fin b => if b < 0 then ninf else inf
  | ninf, fin b => if b < 0 then inf else ninf
  | fin _, inf => fin 0
  | fin _, ninf => fin 0
  | fin a, fin b =>
    if b = 0 then (if a = 0 then nan else if 0 < a then inf else ninf)
    else fin (a / b)

/-- `Math.round`: half-up rounding on finite values, identity on `±Infinity`,
`NaN` on `NaN`. -/
def JSNum.round : JSNum → JSNum
  | nan => nan
  | inf => inf
  | ninf => ninf
  | fin q => fin ⌊q + 1 / 2⌋

/-- `isNaN`. -/
def JSNum.isNaN : JSNum → Bool
  | nan => true
  | _ => false

/-- `Math.min` of two JS numbers (`NaN` propagates). -/
def JSNum.jmin : JSNum → JSNum → JSNum
  | nan, _ => nan
  | _, nan => nan
  | inf, b => b
  | a, inf => a
  | ninf, _ => ninf
  | _, ninf => ninf
  | fin a, fin b => fin (min a b)

/-- `Math.abs`. -/
def JSNum.jabs : JSNum → JSNum
  | nan => nan
  | inf => inf
  | ninf => inf
  | fin q => fin |q|

/-- Strict equality `===` on JS numbers (`NaN === x` is false). -/
def JSNum.seq : JSNum → JSNum → Bool
  | nan, _ => false
  | _, nan => false
  | inf, inf => true
  | ninf, ninf => true
  | fin a, fin b => a == b
  | _, _ => false

/-- Finiteness (neither `NaN` nor `±Infinity`). -/
def JSNum.isFinite : JSNum → Bool
  | fin _ => true
  | _ => false

/-- Bounding box over JS numbers (the running min/max of pass 1 is seeded
with `±Infinity`, so an empty sample list yields an infinite box). -/
structure JBBox where
  b0 : JSNum
  b1 : JSNum
  b2 : JSNum
  b3 : JSNum
deriving DecidableEq, Repr

/-- Target raster width and height computed at the top of `transformTiles`:
`ax = (xmax - xmin) / TILESIZE` over `mbbox`, then `width =
round((maxx - minx) / ax)` over the projected-extent bbox, and likewise for
the height. -/
def transformWH (bbox mbbox : JBBox) : JSNum × JSNum :=
  let ax := (mbbox.b2.sub mbbox.b0).div (.fin 256)
  let ay := (mbbox.b3.sub mbbox.b1).div (.fin 256)
  let width := ((bbox.b2.sub bbox.b0).div ax).round
  let height := ((bbox.b3.sub bbox.b1).div ay).round
  (width, height)

/-- The degenerate guard of `transformTiles` (line 274): `isNaN(width) ||
isNaN(height) || Math.min(width, height) === 0 || Math.abs(width) ===
Infinity || Math.abs(height) === Infinity`. -/
def transformGuard (width height : JSNum) : Bool :=
  width.isNaN || height.isNaN || (width.jmin height).seq (.fin 0) ||
    width.jabs.seq .inf || height.jabs.seq .inf

/-- `transformTiles(pixelsresult, mbbox, debug)` up to its degenerate guard:
a guarded input produces no raster (the JS bare `return`); otherwise the
rendering tail (canvas work ending in `transferToImageBitmap`, abstracted by
the `rendered` argument) always yields a raster. -/
def transformTilesRun {α : Type} (rendered : α) (bbox mbbox : JBBox) :
    Option α :=
  let wh := transformWH bbox mbbox
  if transformGuard wh.1 wh.2 then none else some rendered

/-- Claim-side predicate, following the spec's words: degenerate "exactly
when the computed target raster width or height is non-finite, ≤0, or NaN". -/
def degenerateSpec (width height : JSNum) : Prop :=
  width.isFinite = false ∨ height.isFinite = false ∨
    (∃ q : ℚ, width = .fin q ∧ q ≤ 0) ∨ (∃ q : ℚ, height = .fin q ∧ q ≤ 0)

/-- Amended claim-side predicate: degenerate exactly when width or height is
`NaN` or `±Infinity`, or `min(width, height)` equals 0. -/
def degenerateAmended (width height : JSNum) : Prop :=
  width.isFinite = false ∨ height.isFinite = false ∨ width.jmin height = .fin 0

/-- `returnImage(image1 || getBlankTile())` in `tileTransform`: a missing
resampler output falls back to the blank tile and the request resolves. -/
def ttReturnImage {α : Type} (image1 : Option α) (blank : α) : α :=
  image1.getD blank

/-! ### Sequential per-tile fetch loop (part_000, `loadTile` in
`tileTransform`, lines 486-516)

`getTileWithMaxZoom` outcomes are abstracted by a function from the tile
index to `Except Unit ℕ`; the `catch` branch stores `getBlankTile()` and
continues, so the loop always reaches the compositing stage. -/

/-- Settled outcome of the whole `tileTransform` promise for the fetch
phase. -/
inductive ReqOutcome (α : Type)
  | resolved (a : α)
  | rejected
deriving DecidableEq, Repr

/-- The `loadTile` recursion: `loadCount` advances by one per settled fetch,
successes store the fetched image, failures store the blank tile, and the
loop stops when `loadCount` reaches the tile count. -/
def loadTilesGo (fetch : ℕ → Except Unit ℕ) (blank : ℕ) (n : ℕ)
    (loadCount : ℕ) (acc : List ℕ) : List ℕ :=
  if n ≤ loadCount then acc
  else
    loadTilesGo fetch blank n (loadCount + 1)
      (acc ++ [match fetch loadCount with | .ok image => image | .error _ => blank])
termination_by n - loadCount
decreasing_by omega

/-- Fetch phase of `tileTransform`: the loop starting at `loadCount = 0`;
per-tile failures are absorbed, so the phase always resolves with the list
of per-tile images. -/
def tileFetchPhase (fetch : ℕ → Except Unit ℕ) (blank : ℕ) (n : ℕ) :
    ReqOutcome (List ℕ) :=
  .resolved (loadTilesGo fetch blank n 0 [])

/-! ## Theorems -/

/-! ### Helper lemmas -/

/-- Setting an absent key appends the new entry at the back. -/
theorem mapSet_not_has {V : Type} (m : List (String × V)) (k : String) (v : V)
    (h : mapHas m k = false) : mapSet m k v = m ++ [(k, v)] := by
  simp [mapSet, h]

/-- Deleting the head entry's key removes exactly the head when the key does
not recur in the tail. -/
theorem mapDelete_cons_self {V : Type} (p : String × V) (l : List (String × V))
    (h : p.1 ∉ l.map Prod.fst) : mapDelete (p :: l) p.1 = l := by
  simp only [mapDelete, List.filter_cons, bne_self_eq_false]
  simp only [Bool.false_eq_true, if_false]
  apply List.filter_eq_self.mpr
  intro q hq
  simp only [bne_iff_ne, ne_eq]
  intro hqe
  exact h (hqe ▸ List.mem_map_of_mem Prod.fst hq)

/-- A map already within capacity is untouched by the shrink loop. -/
theorem shrinkGo_of_le (max : ℕ) (data : List (String × ℕ)) (keys : List String)
    (removed : List ℕ) (h : data.length ≤ max) :
    shrinkGo max data keys removed = (data, removed) := by
  cases keys with
  | nil => rfl
  | cons k rest => simp [shrinkGo, Nat.not_lt.mpr h]

/-- Filtering out the entries of one key does not affect `find?` for a
different key. -/
theorem find?_filter_ne (t : ControlTable) (taskId u : String) (hu : u ≠ taskId) :
    List.find? (fun p => p.1 == u) (t.filter (fun p => p.1 != taskId)) =
      List.find? (fun p => p.1 == u) t := by
  induction t with
  | nil => rfl
  | cons p rest ih =>
    by_cases hp : p.1 = taskId
    · have h1 : (p.1 != taskId) = false := by simp [hp]
      have h2 : (p.1 == u) = false := by
        rw [hp]; exact beq_eq_false_iff_ne.mpr fun hc => hu hc.symm
      simp only [List.filter_cons, h1, Bool.false_eq_true, if_false, List.find?_cons, h2]
      exact ih
    · have h1 : (p.1 != taskId) = true := by simp [hp]
      simp only [List.filter_cons, h1, if_true]
      cases hpu : (p.1 == u) with
      | true => simp [List.find?_cons, hpu]
      | false =>
        simp only [List.find?_cons, hpu]
        exact ih

end TileClip

namespace TileClip

/-! ### C3: LRU cache eviction and reads -/

/-- C3 (counterexample).  The claim says `get` promotes the read key to
most-recently-used, so in a capacity-2 cache holding `a` then `b`, reading
`a` and then adding `c` should evict `b`.  The code's `get` does not touch
the map: the subsequent `add` evicts `a` — the very key just read — and the
disposal hook fires on `a`'s payload `1`, not on `b`'s payload `2`. -/
theorem C3_get_promotion_counterexample :
    (((⟨2, []⟩ : LRUCache).add "a" 1).1.add "b" 2).1.get "a" = some 1 ∧
    (((((⟨2, []⟩ : LRUCache).add "a" 1).1.add "b" 2).1).add "c" 3).2 = [1] ∧
    mapHas (((((⟨2, []⟩ : LRUCache).add "a" 1).1.add "b" 2).1).add "c" 3).1.data "a" = false ∧
    mapHas (((((⟨2, []⟩ : LRUCache).add "a" 1).1.add "b" 2).1).add "c" 3).1.data "b" = true := by
  decide

/-- C3 (amended).  A full cache (capacity `max`, `max` distinct truthy
entries) evicts exactly the earliest-inserted entry when a fresh truthy key
is added, invoking the disposal hook exactly once, on that entry's payload;
`get` merely returns the stored payload (the map, hence the recency order,
is not touched by reads). -/
theorem C3_lru_eviction (max : ℕ) (p : String × ℕ) (rest : List (String × ℕ))
    (hlen : rest.length + 1 = max)
    (hnd : ((p :: rest).map Prod.fst).Nodup)
    (hvals : ∀ q ∈ p :: rest, q.2 ≠ 0)
    (k : String) (hk : mapHas (p :: rest) k = false) (v : ℕ) (hv : v ≠ 0) :
    LRUCache.add ⟨max, p :: rest⟩ k v = (⟨max, rest ++ [(k, v)]⟩, [p.2]) ∧
    (∀ key val, LRUCache.get ⟨max, p :: rest⟩ key = some val → (key, val) ∈ p :: rest) := by
  constructor
  · have hp1k : ¬(p.1 == k) := by
      intro hc
      simp [mapHas] at hk
      exact absurd (hk.1) (by simpa using hc)
    have hkp1 : k ≠ p.1 := fun hc => hp1k (by simp [hc])
    have hpnotin : p.1 ∉ rest.map Prod.fst := by
      simp only [List.map_cons, List.nodup_cons] at hnd
      exact hnd.1
    have hd : mapSet (p :: rest) k v = (p :: rest) ++ [(k, v)] :=
      mapSet_not_has _ _ _ hk
    simp only [LRUCache.add, if_neg hv, hk, Bool.false_eq_true, if_false, hd]
    have hlen1 : ((p :: rest) ++ [(k, v)]).length > max := by
      simp [List.length_append]; omega
    rw [if_pos hlen1]
    simp only [LRUCache.shrink]
    have hmap : ((p :: rest) ++ [(k, v)]).map Prod.fst
        = p.1 :: (rest.map Prod.fst ++ [k]) := by simp
    rw [hmap]
    rw [shrinkGo]
    rw [if_pos hlen1]
    have hhas : mapHas ((p :: rest) ++ [(k, v)]) p.1 = true := by
      simp [mapHas]
    rw [hhas]
    simp only [if_true]
    have hget : mapGet ((p :: rest) ++ [(k, v)]) p.1 = some p.2 := by
      simp [mapGet, List.find?_cons_of_pos]
    rw [hget]
    have hdel : mapDelete ((p :: rest) ++ [(k, v)]) p.1 = rest ++ [(k, v)] := by
      have : p.1 ∉ (rest ++ [(k, v)]).map Prod.fst := by
        simp only [List.map_append, List.mem_append, List.map_cons, List.map_nil,
          List.mem_singleton]
        rintro (hc | hc)
        · exact hpnotin hc
        · exact hkp1 hc.symm
      simpa using mapDelete_cons_self p (rest ++ [(k, v)]) this
    rw [hdel]
    have hp2 : p.2 ≠ 0 := hvals p (List.mem_cons_self p rest)
    simp only [Option.getD_some, if_pos hp2, ne_eq]
    rw [shrinkGo_of_le max (rest ++ [(k, v)]) _ _ (by simp; omega)]
    simp
  · intro key val hget
    simp only [LRUCache.get] at hget
    by_cases hh : mapHas (p :: rest) key = true
    · rw [hh] at hget
      simp only [if_true] at hget
      simp only [mapGet, Option.map_eq_some'] at hget
      obtain ⟨q, hfind, hq2⟩ := hget
      have hqmem := List.mem_of_find?_eq_some hfind
      have hqkey := List.find?_some hfind
      simp only [beq_iff_eq] at hqkey
      have : (key, val) = q := by
        cases q; simp_all
      rw [this]; exact hqmem
    · simp only [Bool.not_eq_true] at hh
      rw [hh] at hget
      simp at hget

/-- C3 (witness): capacity-1 cache holding `("a", 5)`; adding `("b", 7)`
evicts `a`, the hook fires exactly once on payload 5. -/
theorem C3_lru_eviction_witness :
    LRUCache.add ⟨1, [("a", 5)]⟩ "b" 7 = (⟨1, [("b", 7)]⟩, [5]) := by
  have h := C3_lru_eviction 1 ("a", 5) [] (by decide) (by decide)
    (by decide) "b" (by decide) 7 (by decide)
  simpa using h.1

/-! ### C7: grouped cancellation -/

/-- C7.  `cancelFetch(T)` aborts exactly the tokens registered under `T`
(the abort calls are, in order, the group's token list), deletes group `T`
from the table, leaves every other group's registration unchanged, and — when
groups are pairwise disjoint, as `cacheFetch` guarantees since each fresh
`AbortController` is pushed under a single task id — aborts no token
registered under a different task id. -/
theorem C7_cancelFetch (t : ControlTable) (taskId : String)
    (hdisj : ∀ p ∈ t, ∀ q ∈ t, p.1 ≠ q.1 → ∀ c ∈ p.2, c ∉ q.2) :
    (cancelFetch t taskId).2 = controlLookup t taskId ∧
    controlLookup (cancelFetch t taskId).1 taskId = [] ∧
    (∀ u, u ≠ taskId → controlLookup (cancelFetch t taskId).1 u = controlLookup t u) ∧
    (∀ u cs, (u, cs) ∈ t → u ≠ taskId → ∀ c ∈ cs, c ∉ (cancelFetch t taskId).2) := by
  refine ⟨rfl, ?_, ?_, ?_⟩
  · simp only [cancelFetch, controlLookup]
    have : List.find? (fun p => p.1 == taskId) (t.filter (fun p => p.1 != taskId)) = none := by
      apply List.find?_eq_none.mpr
      intro x hx
      have := (List.mem_filter.mp hx).2
      simpa using this
    rw [this]; rfl
  · intro u hu
    simp only [cancelFetch, controlLookup]
    rw [find?_filter_ne t taskId u hu]
  · intro u cs hmem hu c hc
    simp only [cancelFetch, controlLookup]
    cases hfind : List.find? (fun p => p.1 == taskId) t with
    | none => simp
    | some q =>
      simp only [Option.map_some', Option.getD_some]
      have hqmem := List.mem_of_find?_eq_some hfind
      have hqkey : q.1 = taskId := by
        have := List.find?_some hfind
        simpa using this
      exact hdisj (u, cs) hmem q hqmem (by simpa [hqkey] using hu) c hc

/-- C7 (witness): table with groups `T ↦ [1, 2]` and `U ↦ [3]`: cancelling
`T` leaves `U`'s registration intact and does not abort token 3. -/
theorem C7_cancelFetch_witness :
    controlLookup (cancelFetch [("T", [1, 2]), ("U", [3])] "T").1 "U" = [3] ∧
    (3 : ℕ) ∉ (cancelFetch [("T", [1, 2]), ("U", [3])] "T").2 := by
  have h := C7_cancelFetch [("T", [1, 2]), ("U", [3])] "T" (by decide)
  exact ⟨by rw [h.2.2.1 "U" (by decide)]; rfl,
    h.2.2.2 "U" [3] (by decide) (by decide) 3 (by decide)⟩

/-! ### C10: missing task id rejects before any effect -/

/-- C10.  With a non-ImageBitmap url and a falsy `options.__taskId`, both
`fetchTile` and `fetchTileBuffer` reject with the inner error
`taskId is null` having performed no cache lookup and no network fetch. -/
theorem C10_taskId_guard (urlIsImageBitmap : Bool) (taskId : Option String)
    (imgCache bufCache : List (String × ℕ)) (url : String)
    (hbm : urlIsImageBitmap = false) (hf : taskIdFalsy taskId = true) :
    fetchTileEntry urlIsImageBitmap taskId imgCache url =
      (.rejectedInner "taskId is null", []) ∧
    fetchTileBufferEntry taskId bufCache url =
      (.rejectedInner "taskId is null", []) := by
  subst hbm
  simp [fetchTileEntry, fetchTileBufferEntry, hf]

/-- C10 (witness): concrete absent task id with a populated cache. -/
theorem C10_taskId_guard_witness :
    fetchTileEntry false none [("u", 4)] "u" = (.rejectedInner "taskId is null", []) ∧
    fetchTileBufferEntry none [("u", 4)] "u" = (.rejectedInner "taskId is null", []) := by
  exact C10_taskId_guard false none [("u", 4)] [("u", 4)] "u" rfl rfl

/-! ### C6: cache-hit payload duplication -/

/-- C6 (counterexample).  A buffer-cache hit resolves with the cache's own
stored object: for a heap holding one buffer (identity 0) cached under the
requested key, `fetchTileBuffer`'s hit path returns identity 0 itself and
allocates nothing, contradicting "resolves with an independent duplicate of
the cached payload, never the cache's own copy". -/
theorem C6_buffer_hit_alias_counterexample :
    fetchTileBufferHit ⟨[[1, 2, 3]]⟩ 0 = (⟨[[1, 2, 3]]⟩, 0) := by
  rfl

/-- C6 (amended).  An image-cache hit resolves with a freshly allocated
bitmap: a different object with the same contents, leaving the cached copy
readable as before; a buffer-cache hit resolves with the cache's own stored
buffer (no copy). -/
theorem C6_cache_hit_payloads (h : Heap) (cid : ℕ) (hv : cid < h.cells.length) :
    (fetchTileHit h cid).2 ≠ cid ∧
    Heap.read (fetchTileHit h cid).1 (fetchTileHit h cid).2 = Heap.read h cid ∧
    fetchTileBufferHit h cid = (h, cid) := by
  refine ⟨by simp only [fetchTileHit, Heap.alloc]; omega, ?_, rfl⟩
  simp only [fetchTileHit, Heap.alloc, Heap.read]
  rw [List.getD_eq_getElem?_getD, List.getElem?_append_right (le_refl _)]
  simp

/-- C6 (witness): heap with a single cached bitmap of contents `[9]`. -/
theorem C6_cache_hit_payloads_witness :
    (fetchTileHit ⟨[[9]]⟩ 0).2 ≠ 0 ∧
    Heap.read (fetchTileHit ⟨[[9]]⟩ 0).1 (fetchTileHit ⟨[[9]]⟩ 0).2 = [9] := by
  have h := C6_cache_hit_payloads ⟨[[9]]⟩ 0 (by decide)
  exact ⟨h.1, h.2.1⟩

/-! ### C2: seam repair -/

/-- Failing input for the seam-repair claim: a 4×4 raster whose columns are,
left to right, opaque red, fully transparent, fully transparent, opaque
red. -/
def seamInput : ImgData :=
  ⟨4, 4,
   [255, 0, 0, 255, 0, 0, 0, 0, 0, 0, 0, 0, 255, 0, 0, 255,
    255, 0, 0, 255, 0, 0, 0, 0, 0, 0, 0, 0, 255, 0, 0, 255,
    255, 0, 0, 255, 0, 0, 0, 0, 0, 0, 0, 0, 255, 0, 0, 255,
    255, 0, 0, 255, 0, 0, 0, 0, 0, 0, 0, 0, 255, 0, 0, 255]⟩

/-- C2 (code evaluated at the failing input).  Column 2 of `seamInput` is a
fully transparent interior column whose next column (3) is also blank and
whose previous column (1) is opaque, so by the claim it must be overwritten
with a copy of column 1 and end up non-transparent.  The code instead leaves
column 2 fully transparent (its copy-from-previous branch tests
`colBlanks[col - 1]`, the current column's own blank flag, which is always
true there), while column 3 is repaired from column 4. -/
theorem C2_blank_column_left_copy_dead :
    checkBoundaryBlank seamInput =
      ⟨4, 4,
       [255, 0, 0, 255, 0, 0, 0, 0, 255, 0, 0, 255, 255, 0, 0, 255,
        255, 0, 0, 255, 0, 0, 0, 0, 255, 0, 0, 255, 255, 0, 0, 255,
        255, 0, 0, 255, 0, 0, 0, 0, 255, 0, 0, 255, 255, 0, 0, 255,
        255, 0, 0, 255, 0, 0, 0, 0, 255, 0, 0, 255, 255, 0, 0, 255]⟩ ∧
    colIsBlank 4 4 (checkBoundaryBlank seamInput).data 2 = true := by
  decide

/-! ### C1: national-offset correction, web-mercator target -/

/-- Identity instantiation of the external coordinate transforms: the
corner-pairing discrepancy in `offsetTileBBOX` is visible independently of
the actual `gcoord` / mercator formulas. -/
def idGeoExt : GeoExt :=
  { merc2geo := id, geo2gcj := id, lnglat2Merc := id,
    mercBBox := fun _ _ _ => ⟨0, 0, 0, 0⟩,
    mercForward := id,
    merc900913BBox := fun _ _ _ => ⟨0, 0, 0, 0⟩ }

/-- C1 (code evaluated at the failing input).  With identity transforms and
corrected geodetic extent `[0, 0, 10, 20]`, the claim reconverts the extreme
corners `(0, 0)` and `(10, 20)`, giving `[0, 0, 10, 20]`; the code builds
its reconversion box as `[minx, miny, maxx, maxx]` (part_000 line 81),
reusing `maxx = 10` in the `maxy` slot, and yields `[0, 0, 10, 10]`. -/
theorem C1_mercator_corner_slip :
    offsetTileBBOX idGeoExt ⟨0, 0, 10, 20⟩ .epsg3857 true = ⟨0, 0, 10, 10⟩ ∧
    offsetTileBBOXClaim idGeoExt ⟨0, 0, 10, 20⟩ .epsg3857 true = ⟨0, 0, 10, 20⟩ ∧
    offsetTileBBOX idGeoExt ⟨0, 0, 10, 20⟩ .epsg3857 true ≠
      offsetTileBBOXClaim idGeoExt ⟨0, 0, 10, 20⟩ .epsg3857 true := by
  decide

/-! ### C4: column conventions of the two planners -/

/-- Membership in a JS inclusive integer loop range. -/
theorem mem_rangeZ {a lo hi : ℤ} : a ∈ rangeZ lo hi ↔ lo ≤ a ∧ a ≤ hi := by
  constructor
  · intro h
    unfold rangeZ at h
    obtain ⟨i, hi', hEq⟩ := List.mem_map.mp h
    rw [List.mem_range] at hi'
    omega
  · intro h
    unfold rangeZ
    exact List.mem_map.mpr ⟨(a - lo).toNat, List.mem_range.mpr (by omega), by omega⟩

/-- C4.  Whenever the planners return a plan, the geodetic-from-mercator
path (`cal4326Tiles`) enumerates exactly the tiles `(col - 1, row,
z + zoomOffset)` over its computed inclusive window — every emitted column is
shifted by `-1` — while the mercator-from-geodetic path (`cal3857Tiles`)
enumerates `(col, row, z + zoomOffset)` with no shift. -/
theorem C4_column_shift (G : GeoExt) (x y : ℤ) (z : ℕ) (zo : ℤ) (g : Bool) :
    (∀ r, cal4326Tiles G x y z zo g = some r →
      ∀ t, t ∈ r.tiles ↔ ∃ col row,
        mincol4326 G x y z g ≤ col ∧ col ≤ maxcol4326 G x y z g ∧
        minrow4326 G x y z g ≤ row ∧ row ≤ maxrow4326 G x y z g ∧
        t = (col - 1, row, (z : ℤ) + zo)) ∧
    (∀ r, cal3857Tiles G x y z zo g = some r →
      ∀ t, t ∈ r.tiles ↔ ∃ col row,
        mincol3857 G x y z g ≤ col ∧ col ≤ maxcol3857 G x y z g ∧
        minrow3857 G x y z g ≤ row ∧ row ≤ maxrow3857 G x y z g ∧
        t = (col, row, (z : ℤ) + zo)) := by
  constructor
  · intro r hr t
    simp only [cal4326Tiles] at hr
    by_cases hc : maxcol4326 G x y z g < mincol4326 G x y z g ∨
        maxrow4326 G x y z g < minrow4326 G x y z g
    · rw [if_pos hc] at hr
      exact absurd hr (by simp)
    · rw [if_neg hc] at hr
      have hrt := congrArg CalResult.tiles (Option.some.inj hr)
      rw [← hrt]
      constructor
      · intro ht
        obtain ⟨row, hrow, ht2⟩ := List.mem_flatMap.mp ht
        obtain ⟨col, hcol, hEq⟩ := List.mem_map.mp ht2
        rw [mem_rangeZ] at hrow hcol
        exact ⟨col, row, hcol.1, hcol.2, hrow.1, hrow.2, hEq.symm⟩
      · rintro ⟨col, row, hc1, hc2, hr1, hr2, rfl⟩
        exact List.mem_flatMap.mpr ⟨row, mem_rangeZ.mpr ⟨hr1, hr2⟩,
          List.mem_map.mpr ⟨col, mem_rangeZ.mpr ⟨hc1, hc2⟩, rfl⟩⟩
  · intro r hr t
    simp only [cal3857Tiles] at hr
    by_cases hc : maxcol3857 G x y z g < mincol3857 G x y z g ∨
        maxrow3857 G x y z g < minrow3857 G x y z g
    · rw [if_pos hc] at hr
      exact absurd hr (by simp)
    · rw [if_neg hc] at hr
      have hrt := congrArg CalResult.tiles (Option.some.inj hr)
      rw [← hrt]
      constructor
      · intro ht
        obtain ⟨row, hrow, ht2⟩ := List.mem_flatMap.mp ht
        obtain ⟨col, hcol, hEq⟩ := List.mem_map.mp ht2
        rw [mem_rangeZ] at hrow hcol
        exact ⟨col, row, hcol.1, hcol.2, hrow.1, hrow.2, hEq.symm⟩
      · rintro ⟨col, row, hc1, hc2, hr1, hr2, rfl⟩
        exact List.mem_flatMap.mpr ⟨row, mem_rangeZ.mpr ⟨hr1, hr2⟩,
          List.mem_map.mpr ⟨col, mem_rangeZ.mpr ⟨hc1, hc2⟩, rfl⟩⟩

/-- Witness instantiation of the externals: the target tile's mercator bbox
is `[-10, -10, 10, 10]` and all coordinate transforms are the identity. -/
def witGeo : GeoExt :=
  { merc2geo := id, geo2gcj := id, lnglat2Merc := id,
    mercBBox := fun _ _ _ => ⟨-10, -10, 10, 10⟩,
    mercForward := id,
    merc900913BBox := fun _ _ _ => ⟨0, 0, 0, 0⟩ }

/-- Concrete plan produced by `cal4326Tiles` on the witness input. -/
def r4wit : CalResult :=
  { tiles := [(-1, 0, 0)]
    tilesbbox := ⟨-540, -270, -180, 90⟩
    bbox := ⟨-10, -10, 10, 10⟩
    mbbox := ⟨-10, -10, 10, 10⟩
    x := 0, y := 0, z := 0 }

/-- Concrete plan produced by `cal3857Tiles` on the witness input. -/
def r3wit : CalResult :=
  { tiles := [(0, 0, 0)]
    tilesbbox := ⟨0, 0, 0, 0⟩
    bbox := ⟨-180, -90, 180, 270⟩
    mbbox := ⟨-180, -90, 180, 270⟩
    x := 0, y := 0, z := 0 }

/-- On the witness input the geodetic planner computes the concrete plan
`r4wit` (window `[0,0] × [0,0]`, single tile `(-1, 0, 0)`). -/
theorem cal4326Tiles_witGeo : cal4326Tiles witGeo 0 0 0 0 false = some r4wit := by
  have hbb : bbox4326 witGeo 0 0 0 false = ⟨-10, -10, 10, 10⟩ := rfl
  have hres : get4326Res 0 * 256 = 360 := by norm_num [get4326Res, FirstRes]
  have h1 : mincol4326 witGeo 0 0 0 false = 0 := by
    simp only [mincol4326, hbb, hres]
    norm_num
  have h2 : maxcol4326 witGeo 0 0 0 false = 0 := by
    simp only [maxcol4326, hbb, hres]
    norm_num
  have h3 : minrow4326 witGeo 0 0 0 false = 0 := by
    simp only [minrow4326, hbb, hres]
    norm_num
  have h4 : maxrow4326 witGeo 0 0 0 false = 0 := by
    simp only [maxrow4326, hbb, hres]
    norm_num
  simp only [cal4326Tiles, h1, h2, h3, h4, hbb, hres]
  rw [if_neg (by norm_num)]
  simp only [r4wit, Option.some.injEq, CalResult.mk.injEq]
  refine ⟨by decide, ?_, by decide⟩
  simp only [BBOXt.mk.injEq]
  norm_num

/-- On the witness input the mercator planner computes the concrete plan
`r3wit` (window `[0,0] × [0,0]`, single tile `(0, 0, 0)`). -/
theorem cal3857Tiles_witGeo : cal3857Tiles witGeo 0 0 0 0 false = some r3wit := by
  have hbb0 : bbox3857 witGeo 0 0 0 false = tile4326BBOX 0 0 0 := rfl
  have htile : tile4326BBOX 0 0 0 = ⟨-180, -90, 180, 270⟩ := by
    simp only [tile4326BBOX, BBOXt.mk.injEq]
    norm_num [get4326Res, FirstRes]
  have hbb : bbox3857 witGeo 0 0 0 false = ⟨-180, -90, 180, 270⟩ := hbb0.trans htile
  have hmb : mbbox3857 witGeo 0 0 0 false = ⟨-180, -90, 180, 270⟩ := by
    simp only [mbbox3857, hbb]
    decide
  have hres : get3857Res 0 * 256 = 40075016.68557848832 := by
    norm_num [get3857Res, mFirstRes]
  have h1 : mincol3857 witGeo 0 0 0 false = 0 := by
    simp only [mincol3857, hmb, hres]
    norm_num
  have h2 : maxcol3857 witGeo 0 0 0 false = 0 := by
    simp only [maxcol3857, hmb, hres]
    norm_num
  have h3 : minrow3857 witGeo 0 0 0 false = 0 := by
    simp only [minrow3857, hmb, hres]
    norm_num
  have h4 : maxrow3857 witGeo 0 0 0 false = 0 := by
    simp only [maxrow3857, hmb, hres]
    norm_num
  simp only [cal3857Tiles, h1, h2, h3, h4, hbb, hmb]
  rw [if_neg (by norm_num)]
  decide

/-- C4 (witness): on the witness input the single geodetic-path tile
`(-1, 0, 0)` sits at `col - 1` for a window column `col`, and the single
mercator-path tile `(0, 0, 0)` carries a window column unshifted. -/
theorem C4_column_shift_witness :
    (∃ col row,
      mincol4326 witGeo 0 0 0 false ≤ col ∧ col ≤ maxcol4326 witGeo 0 0 0 false ∧
      minrow4326 witGeo 0 0 0 false ≤ row ∧ row ≤ maxrow4326 witGeo 0 0 0 false ∧
      ((-1 : ℤ), (0 : ℤ), (0 : ℤ)) = (col - 1, row, ((0 : ℕ) : ℤ) + 0)) ∧
    (∃ col row,
      mincol3857 witGeo 0 0 0 false ≤ col ∧ col ≤ maxcol3857 witGeo 0 0 0 false ∧
      minrow3857 witGeo 0 0 0 false ≤ row ∧ row ≤ maxrow3857 witGeo 0 0 0 false ∧
      ((0 : ℤ), (0 : ℤ), (0 : ℤ)) = (col, row, ((0 : ℕ) : ℤ) + 0)) := by
  have h := C4_column_shift witGeo 0 0 0 0 false
  exact ⟨(h.1 r4wit cal4326Tiles_witGeo ((-1 : ℤ), (0 : ℤ), (0 : ℤ))).mp (by decide),
    (h.2 r3wit cal3857Tiles_witGeo ((0 : ℤ), (0 : ℤ), (0 : ℤ))).mp (by decide)⟩

/-! ### C5: inverted window means blank tile and no fetches -/

/-- C5.  When the window computed by `cal4326Tiles` is inverted (max < min
in either axis), the planner returns no coverage (`none`, the JS bare
`return`, not an exception), and `tileTransform`'s `loadTiles` resolves the
blank tile having performed zero per-tile fetches. -/
theorem C5_inverted_range_blank (G : GeoExt) (x y : ℤ) (z : ℕ) (zo : ℤ) (g : Bool)
    (h : maxcol4326 G x y z g < mincol4326 G x y z g ∨
        maxrow4326 G x y z g < minrow4326 G x y z g) :
    cal4326Tiles G x y z zo g = none ∧
    tileTransformPlan (cal4326Tiles G x y z zo g) = .blankTile ∧
    ttFetchCount (tileTransformPlan (cal4326Tiles G x y z zo g)) = 0 := by
  have h0 : cal4326Tiles G x y z zo g = none := by
    simp only [cal4326Tiles]
    rw [if_pos h]
  exact ⟨h0, by rw [h0]; rfl, by rw [h0]; rfl⟩

/-- Witness instantiation of the externals with an inverted (east < west)
target bbox, producing column window `[1, -1]`. -/
def invGeo : GeoExt :=
  { merc2geo := id, geo2gcj := id, lnglat2Merc := id,
    mercBBox := fun _ _ _ => ⟨300, 0, -300, 300⟩,
    mercForward := id,
    merc900913BBox := fun _ _ _ => ⟨0, 0, 0, 0⟩ }

/-- C5 (witness): the inverted window yields no coverage, the blank tile and
zero fetches. -/
theorem C5_inverted_range_blank_witness :
    cal4326Tiles invGeo 0 0 0 0 false = none ∧
    tileTransformPlan (cal4326Tiles invGeo 0 0 0 0 false) = .blankTile ∧
    ttFetchCount (tileTransformPlan (cal4326Tiles invGeo 0 0 0 0 false)) = 0 := by
  have hbb : bbox4326 invGeo 0 0 0 false = ⟨300, 0, -300, 300⟩ := rfl
  have hres : get4326Res 0 * 256 = 360 := by norm_num [get4326Res, FirstRes]
  have h1 : mincol4326 invGeo 0 0 0 false = 1 := by
    simp only [mincol4326, hbb, hres]
    norm_num
  have h2 : maxcol4326 invGeo 0 0 0 false = -1 := by
    simp only [maxcol4326, hbb, hres]
    norm_num
  exact C5_inverted_range_blank invGeo 0 0 0 0 false (Or.inl (by rw [h1, h2]; decide))

/-! ### C8: pass-2 degenerate guard -/

/-- The implemented guard holds exactly when width or height is `NaN` or
`±Infinity`, or their minimum is exactly zero. -/
theorem transformGuard_iff (w h : JSNum) :
    transformGuard w h = true ↔ degenerateAmended w h := by
  cases w <;> cases h <;>
    simp [transformGuard, degenerateAmended, JSNum.isNaN, JSNum.jmin,
      JSNum.jabs, JSNum.seq, JSNum.isFinite]

/-- C8 (counterexample).  At projected-extent bbox `[10, 0, 4, 256]` and
tile frame `[0, 0, 256, 256]` the computed raster width is `-6`: it is
finite and `≤ 0`, so the claim requires the degenerate signal, but the
implemented guard only tests `Math.min(width, height) === 0` (here `-6`) and
the pass produces a raster. -/
theorem C8_negative_width_counterexample :
    transformWH ⟨.fin 10, .fin 0, .fin 4, .fin 256⟩ ⟨.fin 0, .fin 0, .fin 256, .fin 256⟩ =
      (.fin (-6), .fin 256) ∧
    degenerateSpec (.fin (-6)) (.fin 256) ∧
    transformTilesRun (42 : ℕ) ⟨.fin 10, .fin 0, .fin 4, .fin 256⟩
      ⟨.fin 0, .fin 0, .fin 256, .fin 256⟩ = some 42 := by
  have hwh : transformWH ⟨.fin 10, .fin 0, .fin 4, .fin 256⟩
      ⟨.fin 0, .fin 0, .fin 256, .fin 256⟩ = (.fin (-6), .fin 256) := by
    simp only [transformWH, JSNum.sub]
    norm_num [JSNum.div, JSNum.round]
  refine ⟨hwh, Or.inr (Or.inr (Or.inl ⟨-6, rfl, by norm_num⟩)), ?_⟩
  simp only [transformTilesRun]
  rw [hwh]
  decide

/-- C8 (amended).  Pass 2 produces no raster exactly when the computed
target width or height is `NaN`, `±Infinity`, or has minimum exactly 0 — a
negative finite dimension is not caught — and a degenerate pass makes the
request resolve with the blank tile rather than an error. -/
theorem C8_degenerate_guard {α : Type} (rendered blank : α) (bbox mbbox : JBBox) :
    (transformTilesRun rendered bbox mbbox = none ↔
      degenerateAmended (transformWH bbox mbbox).1 (transformWH bbox mbbox).2) ∧
    (transformTilesRun rendered bbox mbbox = none →
      ttReturnImage (transformTilesRun rendered bbox mbbox) blank = blank) := by
  constructor
  · refine Iff.trans ?_ (transformGuard_iff (transformWH bbox mbbox).1 (transformWH bbox mbbox).2)
    simp only [transformTilesRun]
    by_cases hg : transformGuard (transformWH bbox mbbox).1 (transformWH bbox mbbox).2 = true
    · simp [hg]
    · simp [hg]
  · intro hnone
    rw [ttReturnImage, hnone]
    rfl

/-- C8 (witness): a zero-width input (empty projected extent) is degenerate
and the fallback output is the blank tile. -/
theorem C8_degenerate_guard_witness :
    transformTilesRun (42 : ℕ) ⟨.fin 0, .fin 0, .fin 0, .fin 0⟩
      ⟨.fin 0, .fin 0, .fin 256, .fin 256⟩ = none ∧
    ttReturnImage (transformTilesRun (42 : ℕ) ⟨.fin 0, .fin 0, .fin 0, .fin 0⟩
      ⟨.fin 0, .fin 0, .fin 256, .fin 256⟩) (7 : ℕ) = 7 := by
  have h := C8_degenerate_guard (42 : ℕ) (7 : ℕ) ⟨.fin 0, .fin 0, .fin 0, .fin 0⟩
    ⟨.fin 0, .fin 0, .fin 256, .fin 256⟩
  have hwh : transformWH ⟨.fin 0, .fin 0, .fin 0, .fin 0⟩
      ⟨.fin 0, .fin 0, .fin 256, .fin 256⟩ = (.fin 0, .fin 0) := by
    simp only [transformWH, JSNum.sub]
    norm_num [JSNum.div, JSNum.round]
  have hdeg : degenerateAmended
      (transformWH ⟨.fin 0, .fin 0, .fin 0, .fin 0⟩ ⟨.fin 0, .fin 0, .fin 256, .fin 256⟩).1
      (transformWH ⟨.fin 0, .fin 0, .fin 0, .fin 0⟩ ⟨.fin 0, .fin 0, .fin 256, .fin 256⟩).2 := by
    rw [hwh]
    exact Or.inr (Or.inr (by decide))
  have hnone := h.1.mpr hdeg
  exact ⟨hnone, h.2 hnone⟩

/-! ### C9: per-tile failures are absorbed -/

/-- Unrolling of the `loadTile` recursion: starting at `loadCount = c`, the
loop appends one image per remaining index, substituting the blank tile for
failures. -/
theorem loadTilesGo_spec (fetch : ℕ → Except Unit ℕ) (blank n : ℕ) :
    ∀ k c acc, n - c = k →
      loadTilesGo fetch blank n c acc =
        acc ++ (List.range' c k).map
          (fun i => match fetch i with | .ok image => image | .error _ => blank) := by
  intro k
  induction k with
  | zero =>
    intro c acc h
    rw [loadTilesGo]
    simp [show n ≤ c by omega]
  | succ m ih =>
    intro c acc h
    rw [loadTilesGo]
    rw [if_neg (show ¬n ≤ c by omega)]
    rw [ih (c + 1) _ (by omega)]
    rw [List.range'_succ]
    simp

/-- C9.  The fetch phase of `tileTransform` always resolves (no per-tile
failure rejects the request), producing one image per planned tile: the
fetched image on success, the fully transparent blank tile on failure, with
the loop continuing past failures to the end. -/
theorem C9_failures_absorbed (fetch : ℕ → Except Unit ℕ) (blank n : ℕ) :
    ∃ images, tileFetchPhase fetch blank n = .resolved images ∧
      images.length = n ∧
      ∀ i, i < n → images[i]? =
        some (match fetch i with | .ok image => image | .error _ => blank) := by
  have hs := loadTilesGo_spec fetch blank n n 0 [] (by omega)
  refine ⟨loadTilesGo fetch blank n 0 [], rfl, ?_, ?_⟩
  · rw [hs]
    simp
  · intro i hi
    rw [hs]
    simp only [List.nil_append, List.getElem?_map]
    rw [List.getElem?_range' 0 1 hi]
    simp

/-- C9 (witness): two planned tiles, the second fetch failing: the phase
resolves with the blank tile 9 in the failed slot. -/
theorem C9_failures_absorbed_witness :
    ∃ images, tileFetchPhase (fun i => if i = 0 then .ok 5 else .error ()) 9 2 =
        .resolved images ∧
      images.length = 2 ∧ images[1]? = some 9 := by
  obtain ⟨images, h1, h2, h3⟩ :=
    C9_failures_absorbed (fun i => if i = 0 then .ok 5 else .error ()) 9 2
  refine ⟨images, h1, h2, ?_⟩
  have := h3 1 (by omega)
  simpa using this

end TileClip
